import Mathlib

/-
Shallow embedding of the daily-automation job in `src/daily_job.py`.

Conventions of the embedding:
* Notion task pages become the `Task` structure; each property cell that the
  code reads through `safe_select_name` / `safe_number` / `safe_checkbox` is an
  `Option` field (`none` models a missing or null Notion property).
* Calendar days are modelled as integers (day indices); `timedelta(days=1)`
  becomes `+ 1`.
* Python floats arising from `done / total` are modelled exactly as rationals.
* The external JSON library (`json.loads`) is modelled as an oracle input of
  type `Option JValue`: `none` models a parse failure, `some v` a successful
  parse producing the JSON value `v`.
* Randomness (`random.choice`) is modelled by an explicit outcome parameter:
  the chosen index into the list.
* Python exceptions that the code does not catch are modelled by `Option`
  results (`none` = the call raises).
-/

namespace DailyJob

/-- The property cells of a Notion task page, as read by `daily_job.py`:
`Name` (title), `Date`, `Status` (select), `Type` (select), `Auto-roll?`
(checkbox), `Rollovers`, `Planned duration (min)`, `Actual duration (min)`,
`Complexity` (numbers), `AI comment` (rich text).  A `none` field models a
missing or null Notion property. -/
structure TaskProps where
  name : Option String
  date : Option Int
  status : Option String
  ttype : Option String
  autoRoll : Option Bool
  rollovers : Option Int
  planned : Option Int
  actual : Option Int
  complexity : Option Int
  aiComment : Option String
deriving DecidableEq, Repr

/-- A Notion task page: its page id plus its properties. -/
structure Task where
  id : String
  props : TaskProps
deriving DecidableEq, Repr

/-- Embeds `safe_select_name` (src/daily_job.py:125-128): returns the select
name, `none` when the field or its select payload is missing. -/
def safe_select_name (sel : Option String) : Option String := sel

/-- Embeds `safe_number` (src/daily_job.py:131-134): `num or 0`, i.e. a
missing/null number is read as `0`.  (Over integers, `0 or 0` is `0`, so
`num or 0` coincides with `getD 0`.) -/
def safe_number (num : Option Int) : Int := num.getD 0

/-- Embeds `safe_checkbox` (src/daily_job.py:137-140): `bool(cb)`, i.e. a
missing checkbox reads as `false`. -/
def safe_checkbox (cb : Option Bool) : Bool := cb.getD false

/-- The day-level statistics record built by `calculate_stats`
(src/daily_job.py:270-276). -/
structure Stats where
  total : Nat
  done : Nat
  planned_min : Int
  actual_min : Int
  deep_work_min : Int
deriving DecidableEq, Repr

/-- One iteration of the accumulation loop of `calculate_stats`
(src/daily_job.py:256-268): conditionally count a done task, add the planned
and actual durations, and add the actual duration to the deep-work total when
the task type is "Deep work". -/
def statsStep (acc : Stats) (task : Task) : Stats :=
  let p := task.props
  { total := acc.total,
    done := if safe_select_name p.status == some "Done" then acc.done + 1 else acc.done,
    planned_min := acc.planned_min + safe_number p.planned,
    actual_min := acc.actual_min + safe_number p.actual,
    deep_work_min :=
      if safe_select_name p.ttype == some "Deep work" then
        acc.deep_work_min + safe_number p.actual
      else
        acc.deep_work_min }

/-- Embeds `calculate_stats` (src/daily_job.py:249-276): `total` is the list
length, the remaining counters start at zero and are accumulated by the loop. -/
def calculate_stats (tasks : List Task) : Stats :=
  tasks.foldl statsStep
    { total := tasks.length, done := 0, planned_min := 0, actual_min := 0, deep_work_min := 0 }

/-- Embeds `determine_status` (src/daily_job.py:472-480); the float ratio
`r = done / total` is modelled exactly as a rational (the local variable `r`
is inlined). -/
def determine_status (stats : Stats) : String :=
  if stats.total = 0 then "On track"
  else if (stats.done : ℚ) / (stats.total : ℚ) ≥ 9 / 10 then "Ahead"
  else if (stats.done : ℚ) / (stats.total : ℚ) ≥ 6 / 10 then "On track"
  else "Behind"

/-- Predicate: the task is counted as done by `calculate_stats`. -/
def isDoneTask (task : Task) : Bool :=
  safe_select_name task.props.status == some "Done"

/-- Predicate: the task's type is "Deep work". -/
def isDeepWorkTask (task : Task) : Bool :=
  safe_select_name task.props.ttype == some "Deep work"

theorem foldl_statsStep (tasks : List Task) (acc : Stats) :
    tasks.foldl statsStep acc =
      { total := acc.total,
        done := acc.done + (tasks.filter isDoneTask).length,
        planned_min := acc.planned_min + (tasks.map (fun t => safe_number t.props.planned)).sum,
        actual_min := acc.actual_min + (tasks.map (fun t => safe_number t.props.actual)).sum,
        deep_work_min := acc.deep_work_min +
          ((tasks.filter isDeepWorkTask).map (fun t => safe_number t.props.actual)).sum } := by
  induction tasks generalizing acc with
  | nil => simp
  | cons t ts ih =>
    rw [List.foldl_cons, ih]
    cases hd : isDoneTask t <;> cases hw : isDeepWorkTask t <;>
      simp only [isDoneTask, isDeepWorkTask] at hd hw <;>
      simp [statsStep, hd, hw, List.filter_cons, isDoneTask, isDeepWorkTask,
        Stats.mk.injEq] <;>
      (repeat' apply And.intro) <;> omega

theorem calculate_stats_total (tasks : List Task) :
    (calculate_stats tasks).total = tasks.length := by
  rw [calculate_stats, foldl_statsStep]

theorem calculate_stats_done (tasks : List Task) :
    (calculate_stats tasks).done = (tasks.filter isDoneTask).length := by
  rw [calculate_stats, foldl_statsStep]; simp

theorem calculate_stats_planned (tasks : List Task) :
    (calculate_stats tasks).planned_min =
      (tasks.map (fun t => safe_number t.props.planned)).sum := by
  rw [calculate_stats, foldl_statsStep]; simp

theorem calculate_stats_actual (tasks : List Task) :
    (calculate_stats tasks).actual_min =
      (tasks.map (fun t => safe_number t.props.actual)).sum := by
  rw [calculate_stats, foldl_statsStep]; simp

theorem calculate_stats_deep (tasks : List Task) :
    (calculate_stats tasks).deep_work_min =
      ((tasks.filter isDeepWorkTask).map (fun t => safe_number t.props.actual)).sum := by
  rw [calculate_stats, foldl_statsStep]; simp

/-- C1: for every task list, `calculate_stats` returns `total` equal to the
list length, `done` the number of tasks whose Status select is "Done",
`planned_min` the sum of the planned durations, `actual_min` the sum of the
actual durations, and `deep_work_min` the sum of actual durations over exactly
the tasks whose Type is "Deep work"; missing or null numeric fields are read
as zero by `safe_number`. -/
theorem calculate_stats_spec (tasks : List Task) :
    (calculate_stats tasks).total = tasks.length
    ∧ (calculate_stats tasks).done =
        (tasks.filter (fun t => safe_select_name t.props.status == some "Done")).length
    ∧ (calculate_stats tasks).planned_min =
        (tasks.map (fun t => safe_number t.props.planned)).sum
    ∧ (calculate_stats tasks).actual_min =
        (tasks.map (fun t => safe_number t.props.actual)).sum
    ∧ (calculate_stats tasks).deep_work_min =
        ((tasks.filter (fun t => safe_select_name t.props.ttype == some "Deep work")).map
          (fun t => safe_number t.props.actual)).sum
    ∧ safe_number none = 0 :=
  ⟨calculate_stats_total tasks, calculate_stats_done tasks, calculate_stats_planned tasks,
   calculate_stats_actual tasks, calculate_stats_deep tasks, rfl⟩

theorem sum_map_filter_le (p : Task → Bool) (f : Task → Int) (tasks : List Task)
    (h : ∀ t ∈ tasks, 0 ≤ f t) :
    ((tasks.filter p).map f).sum ≤ (tasks.map f).sum := by
  induction tasks with
  | nil => simp
  | cons t ts ih =>
    have h' : ∀ x ∈ ts, 0 ≤ f x := fun x hx => h x (List.mem_cons_of_mem _ hx)
    have h0 : 0 ≤ f t := h t (List.mem_cons_self _ _)
    cases hp : p t with
    | true => simpa [List.filter_cons, hp] using add_le_add_left (ih h') (f t)
    | false =>
      simp only [List.filter_cons, hp, Bool.false_eq_true, if_false, List.map_cons,
        List.sum_cons]
      have := ih h'
      linarith

/-- C6 (amended): for every task list in which each present planned/actual
duration is non-negative — as the data model requires — `calculate_stats`
satisfies `done ≤ total`, `planned_min ≥ 0`, `actual_min ≥ 0`, and
`deep_work_min ≤ actual_min`.  Without the non-negativity hypothesis the code
violates the bounds: `safe_number` passes negative stored numbers through
(see the counterexample below). -/
theorem calculate_stats_bounds (tasks : List Task)
    (h : ∀ t ∈ tasks, 0 ≤ safe_number t.props.planned ∧ 0 ≤ safe_number t.props.actual) :
    (calculate_stats tasks).done ≤ (calculate_stats tasks).total
    ∧ 0 ≤ (calculate_stats tasks).planned_min
    ∧ 0 ≤ (calculate_stats tasks).actual_min
    ∧ (calculate_stats tasks).deep_work_min ≤ (calculate_stats tasks).actual_min := by
  refine ⟨?_, ?_, ?_, ?_⟩
  · rw [calculate_stats_done, calculate_stats_total]
    exact List.length_filter_le _ _
  · rw [calculate_stats_planned]
    refine List.sum_nonneg fun x hx => ?_
    obtain ⟨t, ht, rfl⟩ := List.mem_map.1 hx
    exact (h t ht).1
  · rw [calculate_stats_actual]
    refine List.sum_nonneg fun x hx => ?_
    obtain ⟨t, ht, rfl⟩ := List.mem_map.1 hx
    exact (h t ht).2
  · rw [calculate_stats_deep, calculate_stats_actual]
    exact sum_map_filter_le _ _ tasks fun t ht => (h t ht).2

/-- A task whose stored "Actual duration (min)" number is negative; the Notion
number property admits it and `safe_number` passes it through. -/
def negDurationTask : Task :=
  { id := "task-neg",
    props :=
      { name := some "Negative actual", date := none, status := none, ttype := none,
        autoRoll := none, rollovers := none, planned := some 0, actual := some (-1),
        complexity := none, aiComment := none } }

/-- C6 counterexample: on a task list containing one task with stored actual
duration -1, `calculate_stats` returns `actual_min = -1 < 0` and
`deep_work_min = 0 > actual_min`, so the claimed bounds fail as stated. -/
theorem calculate_stats_bounds_cex :
    ¬ ((calculate_stats [negDurationTask]).done ≤ (calculate_stats [negDurationTask]).total
       ∧ 0 ≤ (calculate_stats [negDurationTask]).planned_min
       ∧ 0 ≤ (calculate_stats [negDurationTask]).actual_min
       ∧ (calculate_stats [negDurationTask]).deep_work_min ≤
           (calculate_stats [negDurationTask]).actual_min) := by
  decide

/-- A well-formed task (non-negative durations), used to instantiate the
amended bounds theorem. -/
def deepWorkTask : Task :=
  { id := "task-deep",
    props :=
      { name := some "Deep work block", date := some 0, status := some "Done",
        ttype := some "Deep work", autoRoll := some false, rollovers := some 0,
        planned := some 30, actual := some 20, complexity := none, aiComment := none } }

theorem calculate_stats_bounds_witness :
    (calculate_stats [deepWorkTask]).done ≤ (calculate_stats [deepWorkTask]).total
    ∧ 0 ≤ (calculate_stats [deepWorkTask]).planned_min
    ∧ 0 ≤ (calculate_stats [deepWorkTask]).actual_min
    ∧ (calculate_stats [deepWorkTask]).deep_work_min ≤
        (calculate_stats [deepWorkTask]).actual_min :=
  calculate_stats_bounds [deepWorkTask] (by decide)

/-- C2: `determine_status` is a pure function of `done` and `total`; it
returns "On track" when `total = 0`, "Ahead" when `done/total ≥ 0.9`,
"On track" when `0.6 ≤ done/total < 0.9`, and "Behind" when
`done/total < 0.6`. -/
theorem determine_status_spec (s : Stats) :
    (∀ s' : Stats, s'.done = s.done → s'.total = s.total →
        determine_status s' = determine_status s)
    ∧ (s.total = 0 → determine_status s = "On track")
    ∧ (s.total ≠ 0 →
        ((((s.done : ℚ) / (s.total : ℚ)) ≥ 9 / 10 → determine_status s = "Ahead")
         ∧ (6 / 10 ≤ ((s.done : ℚ) / (s.total : ℚ))
              ∧ ((s.done : ℚ) / (s.total : ℚ)) < 9 / 10 →
                determine_status s = "On track")
         ∧ (((s.done : ℚ) / (s.total : ℚ)) < 6 / 10 →
                determine_status s = "Behind"))) := by
  refine ⟨?_, ?_, ?_⟩
  · intro s' h1 h2
    unfold determine_status
    rw [h1, h2]
  · intro h
    unfold determine_status
    rw [if_pos h]
  · intro h
    refine ⟨?_, ?_, ?_⟩
    · intro hr
      unfold determine_status
      rw [if_neg h, if_pos hr]
    · intro hr
      unfold determine_status
      rw [if_neg h, if_neg (not_le.mpr hr.2), if_pos hr.1]
    · intro hr
      unfold determine_status
      rw [if_neg h, if_neg (by linarith : ¬ ((s.done : ℚ) / (s.total : ℚ) ≥ 9 / 10)),
        if_neg (by linarith : ¬ ((s.done : ℚ) / (s.total : ℚ) ≥ 6 / 10))]

theorem determine_status_witness :
    determine_status ⟨5, 3, 0, 0, 0⟩ = "On track" :=
  ((determine_status_spec ⟨5, 3, 0, 0, 0⟩).2.2 (by decide)).2.1 (by norm_num)

/-- A property value carried in an `update_page` / `create_page` payload. -/
inductive PropValue where
  | date (day : Int)
  | num (n : Int)
  | richText (s : String)
deriving DecidableEq, Repr

/-- One `update_page` call (src/daily_job.py:105-109): the page id and the
`properties` object of the PATCH payload, as a keyed list. -/
structure UpdateCall where
  pageId : String
  properties : List (String × PropValue)
deriving DecidableEq, Repr

/-- The payload that `auto_roll_tasks` sends for one rolled task
(src/daily_job.py:232-240): only the `Date` and `Rollovers` properties. -/
def rollUpdate (task : Task) (tomorrow : Int) : UpdateCall :=
  { pageId := task.id,
    properties :=
      [("Date", PropValue.date tomorrow),
       ("Rollovers", PropValue.num (safe_number task.props.rollovers + 1))] }

/-- One iteration of the `auto_roll_tasks` loop (src/daily_job.py:221-241):
skip the task when its status is "Done" or its auto-roll checkbox is off,
otherwise record the update call and bump the rolled counter. -/
def autoRollStep (tomorrow : Int) (acc : List UpdateCall × Nat) (task : Task) :
    List UpdateCall × Nat :=
  if safe_select_name task.props.status == some "Done"
      || !safe_checkbox task.props.autoRoll then
    acc
  else
    (acc.1 ++ [rollUpdate task tomorrow], acc.2 + 1)

/-- Embeds `auto_roll_tasks` (src/daily_job.py:216-243): returns the list of
issued update calls (in loop order) together with the rolled count; `tomorrow`
is `target_day + timedelta(days=1)`. -/
def auto_roll_tasks (tasks : List Task) (target_day : Int) : List UpdateCall × Nat :=
  tasks.foldl (autoRollStep (target_day + 1)) ([], 0)

/-- A task is rolled exactly when its status is not "Done" and its auto-roll
checkbox is set. -/
def rollEligible (task : Task) : Bool :=
  !(safe_select_name task.props.status == some "Done") && safe_checkbox task.props.autoRoll

theorem foldl_autoRollStep (tomorrow : Int) (tasks : List Task)
    (us : List UpdateCall) (n : Nat) :
    tasks.foldl (autoRollStep tomorrow) (us, n) =
      (us ++ (tasks.filter rollEligible).map (fun t => rollUpdate t tomorrow),
       n + (tasks.filter rollEligible).length) := by
  induction tasks generalizing us n with
  | nil => simp
  | cons t ts ih =>
    rw [List.foldl_cons]
    cases hs : safe_select_name t.props.status == some "Done" <;>
      cases hf : safe_checkbox t.props.autoRoll <;>
      (simp [autoRollStep, rollEligible, hs, hf, List.filter_cons, ih]; try omega)

/-- C3: `auto_roll_tasks` issues exactly one update per task that is neither
"Done" nor auto-roll-disabled — setting its date to the source day plus one
and its rollover counter to its previous value plus one — issues nothing for
the other tasks (they are filtered out), and returns the number of tasks
rolled. -/
theorem auto_roll_tasks_spec (tasks : List Task) (target_day : Int) :
    (auto_roll_tasks tasks target_day).1 =
      (tasks.filter (fun t =>
          !(safe_select_name t.props.status == some "Done")
            && safe_checkbox t.props.autoRoll)).map
        (fun t =>
          { pageId := t.id,
            properties :=
              [("Date", PropValue.date (target_day + 1)),
               ("Rollovers", PropValue.num (safe_number t.props.rollovers + 1))] })
    ∧ (auto_roll_tasks tasks target_day).2 =
        (tasks.filter (fun t =>
            !(safe_select_name t.props.status == some "Done")
              && safe_checkbox t.props.autoRoll)).length := by
  rw [auto_roll_tasks, foldl_autoRollStep]
  constructor
  · simp only [List.nil_append]
    rfl
  · simp only [Nat.zero_add]
    rfl

/-- Application of one `update_page` patch to a store snapshot: the page with
the matching id gets exactly the properties named in the payload replaced;
every other page is untouched.  (This is the Notion-side semantics of
`update_page`, src/daily_job.py:105-109.) -/
def setProp (p : TaskProps) (kv : String × PropValue) : TaskProps :=
  match kv with
  | ("Date", PropValue.date d) => { p with date := some d }
  | ("Rollovers", PropValue.num n) => { p with rollovers := some n }
  | ("AI comment", PropValue.richText s) => { p with aiComment := some s }
  | _ => p

/-- Applying an update call to a task store: patch the page whose id matches,
leave the rest alone; no page is created or deleted. -/
def update_page (store : List Task) (u : UpdateCall) : List Task :=
  store.map fun t =>
    if t.id = u.pageId then { t with props := u.properties.foldl setProp t.props } else t

/-- Two tasks agree on every stored field except possibly `Date` and
`Rollovers`. -/
def FrameExceptDateRoll (t t' : Task) : Prop :=
  t'.id = t.id ∧ t'.props.name = t.props.name ∧ t'.props.status = t.props.status
  ∧ t'.props.ttype = t.props.ttype ∧ t'.props.autoRoll = t.props.autoRoll
  ∧ t'.props.planned = t.props.planned ∧ t'.props.actual = t.props.actual
  ∧ t'.props.complexity = t.props.complexity ∧ t'.props.aiComment = t.props.aiComment

/-- Placeholder task used as the default for positional indexing. -/
def defaultTask : Task :=
  { id := "",
    props :=
      { name := none, date := none, status := none, ttype := none, autoRoll := none,
        rollovers := none, planned := none, actual := none, complexity := none,
        aiComment := none } }

theorem update_page_dateRoll_frame (store : List Task) (pid : String) (a b : Int) :
    (update_page store ⟨pid, [("Date", PropValue.date a), ("Rollovers", PropValue.num b)]⟩).length
        = store.length
    ∧ ∀ i : Nat, i < store.length →
        FrameExceptDateRoll (store.getD i defaultTask)
          ((update_page store
              ⟨pid, [("Date", PropValue.date a), ("Rollovers", PropValue.num b)]⟩).getD i
            defaultTask) := by
  refine ⟨by simp [update_page], fun i hi => ?_⟩
  have hlen : i < (update_page store
      ⟨pid, [("Date", PropValue.date a), ("Rollovers", PropValue.num b)]⟩).length := by
    simpa [update_page] using hi
  rw [List.getD_eq_getElem store defaultTask hi, List.getD_eq_getElem _ defaultTask hlen]
  simp only [update_page, List.getElem_map]
  by_cases hid : store[i].id = pid
  · rw [if_pos hid]
    exact ⟨rfl, rfl, rfl, rfl, rfl, rfl, rfl, rfl, rfl⟩
  · rw [if_neg hid]
    exact ⟨rfl, rfl, rfl, rfl, rfl, rfl, rfl, rfl, rfl⟩

/-- C9: every update issued by `auto_roll_tasks` names only the `Date` and
`Rollovers` properties in its payload, and applying it to any store snapshot
preserves the number of tasks (nothing is deleted) and changes no field other
than `Date` and `Rollovers` of any task. -/
theorem auto_roll_frame (tasks : List Task) (target_day : Int) (u : UpdateCall)
    (hu : u ∈ (auto_roll_tasks tasks target_day).1) :
    u.properties.map Prod.fst = ["Date", "Rollovers"]
    ∧ ∀ store : List Task,
        (update_page store u).length = store.length
        ∧ ∀ i : Nat, i < store.length →
            FrameExceptDateRoll (store.getD i defaultTask)
              ((update_page store u).getD i defaultTask) := by
  rw [(auto_roll_tasks_spec tasks target_day).1] at hu
  obtain ⟨t, _, rfl⟩ := List.mem_map.1 hu
  exact ⟨rfl, fun store =>
    update_page_dateRoll_frame store t.id (target_day + 1)
      (safe_number t.props.rollovers + 1)⟩

/-- A task that `auto_roll_tasks` rolls: not done, auto-roll enabled. -/
def rollableTask : Task :=
  { id := "task-roll",
    props :=
      { name := some "Unfinished", date := some 10, status := some "Todo",
        ttype := some "Admin", autoRoll := some true, rollovers := some 2,
        planned := some 60, actual := some 0, complexity := none, aiComment := none } }

theorem auto_roll_frame_witness :
    (rollUpdate rollableTask 11).properties.map Prod.fst = ["Date", "Rollovers"]
    ∧ (update_page [deepWorkTask] (rollUpdate rollableTask 11)).length = 1 :=
  ⟨(auto_roll_frame [rollableTask] 10 (rollUpdate rollableTask 11) (by decide)).1,
   ((auto_roll_frame [rollableTask] 10 (rollUpdate rollableTask 11) (by decide)).2
      [deepWorkTask]).1⟩

/-- One entry of the fixed template list `DAILY_RECURRING_TASKS`
(src/daily_job.py:45-71). -/
structure TemplateTask where
  name : String
  planned : Int
  ttype : String
deriving DecidableEq, Repr

/-- The five hard-coded recurring-task templates (src/daily_job.py:45-71). -/
def DAILY_RECURRING_TASKS : List TemplateTask :=
  [⟨"Утренний ритуал — прочитать план, записать таски", 10, "Admin"⟩,
   ⟨"Практика программирования / курсы", 120, "Learning"⟩,
   ⟨"Физуха", 60, "Gym"⟩,
   ⟨"Немецкий — продлить стрик", 20, "Learning"⟩,
   ⟨"Вечерний ритуал — прочитать summary, записать таски и инфу", 10, "Admin"⟩]

/-- The existence filter used by the seeder (src/daily_job.py:176-190):
`Date` equals the target day AND `Name` (title) equals the template name. -/
def matchesNameDate (day : Int) (nm : String) (task : Task) : Bool :=
  task.props.date == some day && task.props.name == some nm

/-- The task page created by the seeder for one template
(src/daily_job.py:196-207): Status=Todo, Auto-roll?=false, Rollovers=0,
planned duration from the template, actual duration 0.  The page id is
assigned by the remote store and never read back, so it is left blank. -/
def seedTask (t : TemplateTask) (day : Int) : Task :=
  { id := "",
    props :=
      { name := some t.name, date := some day, status := some "Todo",
        ttype := some t.ttype, autoRoll := some false, rollovers := some 0,
        planned := some t.planned, actual := some 0, complexity := none,
        aiComment := none } }

/-- The seeder loop (src/daily_job.py:169-210) over a template list: for each
template, query the store for a page with the same name on the target day;
when none exists, create the template's page (the store grows) and count it. -/
def ensureAux : List TemplateTask → List Task → Int → List Task × Nat
  | [], store, _ => (store, 0)
  | t :: rest, store, day =>
    if store.filter (matchesNameDate day t.name) = [] then
      let next := ensureAux rest (store ++ [seedTask t day]) day
      (next.1, next.2 + 1)
    else ensureAux rest store day

/-- Embeds `ensure_daily_recurring_tasks` (src/daily_job.py:165-210): run the
seeder loop over the five templates against the given store snapshot; returns
the new store and the number of pages created. -/
def ensure_daily_recurring_tasks (store : List Task) (target_day : Int) :
    List Task × Nat :=
  ensureAux DAILY_RECURRING_TASKS store target_day

theorem matches_seedTask (t : TemplateTask) (day dd : Int) (nm : String) :
    matchesNameDate dd nm (seedTask t day) = true ↔ day = dd ∧ t.name = nm := by
  simp [matchesNameDate, seedTask]

theorem ensureAux_append (ts : List TemplateTask) (store : List Task) (day : Int) :
    ∃ created, (ensureAux ts store day).1 = store ++ created := by
  induction ts generalizing store with
  | nil => exact ⟨[], by simp [ensureAux]⟩
  | cons t rest ih =>
    by_cases h : store.filter (matchesNameDate day t.name) = []
    · obtain ⟨c, hc⟩ := ih (store ++ [seedTask t day])
      exact ⟨[seedTask t day] ++ c, by simp [ensureAux, h, hc]⟩
    · obtain ⟨c, hc⟩ := ih store
      exact ⟨c, by simp [ensureAux, h, hc]⟩

theorem ensureAux_filter_pres (ts : List TemplateTask) (store : List Task) (day : Int)
    (p : Task → Bool) (h : store.filter p ≠ []) :
    (ensureAux ts store day).1.filter p ≠ [] := by
  obtain ⟨c, hc⟩ := ensureAux_append ts store day
  rw [hc, List.filter_append]
  intro hcon
  exact h (List.append_eq_nil.1 hcon).1

theorem ensureAux_complete (ts : List TemplateTask) (store : List Task) (day : Int) :
    ∀ t ∈ ts, (ensureAux ts store day).1.filter (matchesNameDate day t.name) ≠ [] := by
  induction ts generalizing store with
  | nil => intro t ht; cases ht
  | cons t' rest ih =>
    intro t ht
    by_cases h : store.filter (matchesNameDate day t'.name) = []
    · rcases List.mem_cons.1 ht with rfl | htl
      · simp only [ensureAux, h, if_pos]
        refine ensureAux_filter_pres rest _ day _ ?_
        have hm : matchesNameDate day t.name (seedTask t day) = true :=
          (matches_seedTask t day day t.name).2 ⟨rfl, rfl⟩
        simp [List.filter_append, hm]
      · simp only [ensureAux, h, if_pos]
        exact ih (store ++ [seedTask t' day]) t htl
    · rcases List.mem_cons.1 ht with rfl | htl
      · simp only [ensureAux, h, if_neg, ite_false]
        exact ensureAux_filter_pres rest store day _ h
      · simp only [ensureAux, h, if_neg, ite_false]
        exact ih store t htl

theorem ensureAux_stable (ts : List TemplateTask) (store : List Task) (day : Int)
    (h : ∀ t ∈ ts, store.filter (matchesNameDate day t.name) ≠ []) :
    ensureAux ts store day = (store, 0) := by
  induction ts with
  | nil => rfl
  | cons t rest ih =>
    have ht : store.filter (matchesNameDate day t.name) ≠ [] :=
      h t (List.mem_cons_self _ _)
    simp only [ensureAux, ht, if_neg, ite_false]
    exact ih fun x hx => h x (List.mem_cons_of_mem _ hx)

theorem ensureAux_length (ts : List TemplateTask) (store : List Task) (day : Int) :
    (ensureAux ts store day).1.length = store.length + (ensureAux ts store day).2 := by
  induction ts generalizing store with
  | nil => simp [ensureAux]
  | cons t rest ih =>
    by_cases h : store.filter (matchesNameDate day t.name) = []
    · have := ih (store ++ [seedTask t day])
      simp only [ensureAux, h, if_pos] at *
      simp only [List.length_append, List.length_singleton] at this
      omega
    · simpa [ensureAux, h] using ih store

theorem ensureAux_new_defaults (ts : List TemplateTask) (store : List Task) (day : Int) :
    ∀ x ∈ (ensureAux ts store day).1, x ∈ store ∨ ∃ t, x = seedTask t day := by
  induction ts generalizing store with
  | nil => intro x hx; exact Or.inl (by simpa [ensureAux] using hx)
  | cons t rest ih =>
    intro x hx
    by_cases h : store.filter (matchesNameDate day t.name) = []
    · simp only [ensureAux, h, if_pos] at hx
      rcases ih (store ++ [seedTask t day]) x hx with hmem | hnew
      · rcases List.mem_append.1 hmem with hs | hseed
        · exact Or.inl hs
        · exact Or.inr ⟨t, by simpa using hseed⟩
      · exact Or.inr hnew
    · simp only [ensureAux, h, if_neg, ite_false] at hx
      exact ih store x hx

theorem ensureAux_dup_bound (ts : List TemplateTask) (store : List Task) (day : Int)
    (nm : String) (dd : Int) :
    ((ensureAux ts store day).1.filter (matchesNameDate dd nm)).length
      ≤ max ((store.filter (matchesNameDate dd nm)).length) 1 := by
  induction ts generalizing store with
  | nil => simp only [ensureAux]; exact le_max_left _ _
  | cons t rest ih =>
    by_cases h : store.filter (matchesNameDate day t.name) = []
    · simp only [ensureAux, h, if_pos]
      refine le_trans (ih (store ++ [seedTask t day])) ?_
      cases hm : matchesNameDate dd nm (seedTask t day)
      · simp [List.filter_append, hm]
      · obtain ⟨rfl, rfl⟩ := (matches_seedTask t day dd nm).1 hm
        have hflt : (store ++ [seedTask t day]).filter (matchesNameDate day t.name)
            = [seedTask t day] := by
          rw [List.filter_append, h]
          simp [hm]
        rw [hflt, h]
        simp
    · simpa [ensureAux, h] using ih store

theorem ensureAux_existing_pres (ts : List TemplateTask) (store : List Task) (day : Int)
    (nm : String) (dd : Int)
    (h : (store.filter (matchesNameDate dd nm)).length ≠ 0) :
    ((ensureAux ts store day).1.filter (matchesNameDate dd nm)).length
      = (store.filter (matchesNameDate dd nm)).length := by
  induction ts generalizing store with
  | nil => simp [ensureAux]
  | cons t rest ih =>
    by_cases hc : store.filter (matchesNameDate day t.name) = []
    · simp only [ensureAux, hc, if_pos]
      cases hm : matchesNameDate dd nm (seedTask t day)
      · have hfe : (store ++ [seedTask t day]).filter (matchesNameDate dd nm)
            = store.filter (matchesNameDate dd nm) := by
          simp [List.filter_append, hm]
        have := ih (store ++ [seedTask t day]) (by rw [hfe]; exact h)
        rw [hfe] at this
        exact this
      · obtain ⟨rfl, rfl⟩ := (matches_seedTask t day dd nm).1 hm
        rw [hc] at h
        simp at h
    · simpa [ensureAux, hc] using ih store h

/-- C4: the seeder is idempotent — a second run for the same day changes
nothing and creates zero tasks — the count it returns is the number of pages
added, every page it adds carries the default fields (Status=Todo,
Rollovers=0, actual duration 0, auto-roll flag false), it never pushes the
number of tasks sharing a (name, date) pair above one, and it creates nothing
for a (name, date) pair that already exists in the store. -/
theorem ensure_daily_recurring_tasks_spec (store : List Task) (day : Int) :
    (ensure_daily_recurring_tasks (ensure_daily_recurring_tasks store day).1 day).1
        = (ensure_daily_recurring_tasks store day).1
    ∧ (ensure_daily_recurring_tasks (ensure_daily_recurring_tasks store day).1 day).2 = 0
    ∧ (ensure_daily_recurring_tasks store day).1.length
        = store.length + (ensure_daily_recurring_tasks store day).2
    ∧ (∀ x ∈ (ensure_daily_recurring_tasks store day).1,
        x ∈ store
        ∨ (x.props.status = some "Todo" ∧ x.props.rollovers = some 0
           ∧ x.props.actual = some 0 ∧ x.props.autoRoll = some false))
    ∧ (∀ nm : String, ∀ dd : Int,
        ((ensure_daily_recurring_tasks store day).1.filter (matchesNameDate dd nm)).length
          ≤ max ((store.filter (matchesNameDate dd nm)).length) 1)
    ∧ (∀ nm : String, ∀ dd : Int,
        (store.filter (matchesNameDate dd nm)).length ≠ 0 →
          ((ensure_daily_recurring_tasks store day).1.filter (matchesNameDate dd nm)).length
            = (store.filter (matchesNameDate dd nm)).length) := by
  have hstable : ensureAux DAILY_RECURRING_TASKS
      (ensureAux DAILY_RECURRING_TASKS store day).1 day
      = ((ensureAux DAILY_RECURRING_TASKS store day).1, 0) :=
    ensureAux_stable _ _ _ (ensureAux_complete DAILY_RECURRING_TASKS store day)
  refine ⟨?_, ?_, ensureAux_length _ _ _, ?_, ?_, ?_⟩
  · rw [ensure_daily_recurring_tasks, ensure_daily_recurring_tasks, hstable]
  · rw [ensure_daily_recurring_tasks, ensure_daily_recurring_tasks, hstable]
  · intro x hx
    rcases ensureAux_new_defaults DAILY_RECURRING_TASKS store day x hx with hs | ⟨t, rfl⟩
    · exact Or.inl hs
    · exact Or.inr ⟨rfl, rfl, rfl, rfl⟩
  · intro nm dd
    exact ensureAux_dup_bound _ _ _ _ _
  · intro nm dd h
    exact ensureAux_existing_pres _ _ _ _ _ h

theorem ensure_daily_recurring_tasks_witness :
    ((ensure_daily_recurring_tasks [seedTask ⟨"Физуха", 60, "Gym"⟩ 0] 0).1.filter
        (matchesNameDate 0 "Физуха")).length
      = (([seedTask ⟨"Физуха", 60, "Gym"⟩ 0] : List Task).filter
          (matchesNameDate 0 "Физуха")).length :=
  (ensure_daily_recurring_tasks_spec [seedTask ⟨"Физуха", 60, "Gym"⟩ 0] 0).2.2.2.2.2
    "Физуха" 0 (by decide)

/-- Step one of `clean_text` (src/daily_job.py:146): `txt.replace("\r", " ")`,
each carriage return becomes a space. -/
def replaceCR (cs : List Char) : List Char :=
  cs.map fun c => if c = '\r' then ' ' else c

/-- Step two of `clean_text` (src/daily_job.py:146):
`txt.replace("\n\n\n", "\n")` — a single left-to-right pass replacing each
non-overlapping run of three consecutive newlines by one newline. -/
def collapseNL : List Char → List Char
  | [] => []
  | [c] => [c]
  | [c, d] => [c, d]
  | c :: d :: e :: rest =>
    if c = '\n' ∧ d = '\n' ∧ e = '\n' then '\n' :: collapseNL rest
    else c :: collapseNL (d :: e :: rest)

/-- The character class removed by step three of `clean_text`
(src/daily_job.py:147), `re.sub(r"[\x00-\x1f\x80-\xff]", "", txt)`: the C0
control characters together with every code point in U+0080..U+00FF (the
whole Latin-1 supplement, printable characters included). -/
def removedByRegex (c : Char) : Bool :=
  c.val ≤ 0x1f || (0x80 ≤ c.val && c.val ≤ 0xff)

/-- Python `str.strip()`: drop leading and trailing whitespace (modelled with
ASCII whitespace, which is all that survives the regex removal anyway). -/
def pyStripList (cs : List Char) : List Char :=
  ((cs.dropWhile Char.isWhitespace).reverse.dropWhile Char.isWhitespace).reverse

/-- `clean_text` on a character list: replace `\r` by a space, collapse
newline triples, drop the regex character class, strip. -/
def cleanList (cs : List Char) : List Char :=
  pyStripList ((collapseNL (replaceCR cs)).filter fun c => !removedByRegex c)

/-- Embeds `clean_text` (src/daily_job.py:143-148) on strings.  (The `None`
input branch of the Python function is modelled at the call sites that can
pass `None`, via `cleanJStr` below.) -/
def clean_text (s : String) : String := ⟨cleanList s.data⟩

/-- Python `str.strip()` on a string, as used on the raw AI reply
(src/daily_job.py:447). -/
def pyStripString (s : String) : String := ⟨pyStripList s.data⟩

/-- Embeds the reply handling of `ai_comment_for_task`
(src/daily_job.py:328-365): the model's reply text is returned cleaned with
`clean_text`. -/
def ai_comment_for_task (responseText : String) : String := clean_text responseText

theorem collapseNL_filter (keep : Char → Bool) (hk : keep '\n' = false) :
    ∀ cs : List Char, (collapseNL cs).filter keep = cs.filter keep
  | [] => by simp [collapseNL]
  | [c] => by simp [collapseNL]
  | [c, d] => by simp [collapseNL]
  | c :: d :: e :: rest => by
    by_cases h : c = '\n' ∧ d = '\n' ∧ e = '\n'
    · obtain ⟨rfl, rfl, rfl⟩ := h
      rw [collapseNL, if_pos ⟨rfl, rfl, rfl⟩]
      simp [List.filter_cons, hk, collapseNL_filter keep hk rest]
    · rw [collapseNL, if_neg h]
      simp [List.filter_cons, collapseNL_filter keep hk (d :: e :: rest)]

theorem collapseNL_sublist : ∀ cs : List Char, List.Sublist (collapseNL cs) cs
  | [] => by simp [collapseNL]
  | [c] => by simp [collapseNL]
  | [c, d] => by simp [collapseNL]
  | c :: d :: e :: rest => by
    by_cases h : c = '\n' ∧ d = '\n' ∧ e = '\n'
    · obtain ⟨rfl, rfl, rfl⟩ := h
      rw [collapseNL, if_pos ⟨rfl, rfl, rfl⟩]
      exact List.Sublist.cons₂ '\n'
        (((collapseNL_sublist rest).trans (List.sublist_cons_self '\n' rest)).trans
          (List.sublist_cons_self '\n' ('\n' :: rest)))
    · rw [collapseNL, if_neg h]
      exact List.Sublist.cons₂ c (collapseNL_sublist (d :: e :: rest))

theorem pyStripList_sublist (cs : List Char) : List.Sublist (pyStripList cs) cs := by
  unfold pyStripList
  have h1 : List.Sublist
      ((cs.dropWhile Char.isWhitespace).reverse.dropWhile Char.isWhitespace)
      (cs.dropWhile Char.isWhitespace).reverse := List.dropWhile_sublist _
  have h2 := h1.reverse
  rw [List.reverse_reverse] at h2
  exact h2.trans (List.dropWhile_sublist _)

theorem cleanList_eq (cs : List Char) :
    cleanList cs = pyStripList ((replaceCR cs).filter fun c => !removedByRegex c) := by
  unfold cleanList
  rw [collapseNL_filter _ (by decide) (replaceCR cs)]

/-- C8 (amended): `clean_text` replaces each carriage return by a space,
collapses each run of three newlines, removes every character with code point
in 0x00..0x1F or 0x80..0xFF — all C0 controls, but also every Latin-1
supplement character, printable ones included — and strips surrounding
whitespace; the surviving characters are an in-order subsequence of the
carriage-return-replaced input, otherwise unchanged.  This is the cleanup
applied to every AI-generated task comment via `ai_comment_for_task`. -/
theorem clean_text_spec (s : String) :
    (clean_text s).data = pyStripList ((replaceCR s.data).filter fun c => !removedByRegex c)
    ∧ (∀ c ∈ (clean_text s).data, removedByRegex c = false)
    ∧ List.Sublist (clean_text s).data (replaceCR s.data)
    ∧ ai_comment_for_task s = clean_text s := by
  have hdata : (clean_text s).data = cleanList s.data := rfl
  refine ⟨by rw [hdata, cleanList_eq], ?_, ?_, rfl⟩
  · intro c hc
    rw [hdata, cleanList_eq] at hc
    have hmem := (pyStripList_sublist _).subset hc
    have := (List.mem_filter.1 hmem).2
    simpa using this
  · rw [hdata, cleanList_eq]
    exact (pyStripList_sublist _).trans (List.filter_sublist _)

/-- C8 counterexample: the character 'é' (U+00E9) is not a control character
(not in C0, not DEL, not C1) and the input "aéb" contains no newline or
carriage return — so no blank-line collapsing is involved — yet `clean_text`
(as applied to AI comments by `ai_comment_for_task`) deletes it: the claim
that every non-control character outside collapsed blank-line runs survives
unchanged is false. -/
theorem clean_text_cex :
    ai_comment_for_task "aéb" = "ab"
    ∧ 'é' ∈ ("aéb" : String).data
    ∧ 'é' ∉ (ai_comment_for_task "aéb").data
    ∧ ¬ ('é'.val ≤ 0x1f) ∧ 'é'.val ≠ 0x7f
    ∧ ¬ (0x80 ≤ 'é'.val ∧ 'é'.val ≤ 0x9f)
    ∧ (∀ c ∈ ("aéb" : String).data, c ≠ '\n' ∧ c ≠ '\r') := by
  decide

theorem clean_text_spec_witness : removedByRegex 'q' = false :=
  (clean_text_spec "q").2.1 'q' (by decide)

/-- Python `content.split("\n")` on a character list (src/daily_job.py:382). -/
def splitNL : List Char → List (List Char)
  | [] => [[]]
  | c :: rest =>
    if c = '\n' then [] :: splitNL rest
    else
      match splitNL rest with
      | [] => [[c]]
      | l :: ls => (c :: l) :: ls

/-- Embeds `load_advice_lines` (src/daily_job.py:371-384) as a function of the
advice-file content (the missing-file branch returns the empty list and is
not modelled): split on newlines, clean each line, keep the lines whose
cleaned length is between 40 and 300 characters. -/
def load_advice_lines (content : String) : List String :=
  let raw_lines := (splitNL content.data).map fun cs => clean_text ⟨cs⟩
  raw_lines.filter fun x => 40 ≤ x.length && x.length ≤ 300

/-- Four lines of lengths 10, 45, 305 and 200 (all plain ASCII, so cleanup
leaves them unchanged). -/
def adviceTestInput : String :=
  ⟨List.replicate 10 'a' ++ '\n' ::
    (List.replicate 45 'a' ++ '\n' ::
      (List.replicate 305 'a' ++ '\n' :: List.replicate 200 'a'))⟩

/-- C7: `load_advice_lines` keeps exactly the cleaned lines whose length lies
in [40, 300]; in particular, for input lines of lengths 10, 45, 305 and 200,
exactly the lines of length 45 and 200 survive. -/
theorem load_advice_lines_spec :
    (∀ content : String, ∀ x : String,
        x ∈ load_advice_lines content ↔
          x ∈ (splitNL content.data).map (fun cs => clean_text ⟨cs⟩)
          ∧ 40 ≤ x.length ∧ x.length ≤ 300)
    ∧ load_advice_lines adviceTestInput
        = [⟨List.replicate 45 'a'⟩, ⟨List.replicate 200 'a'⟩] := by
  constructor
  · intro content x
    simp [load_advice_lines, List.mem_filter, and_assoc]
  · set_option maxRecDepth 8000 in decide

theorem load_advice_lines_witness :
    (⟨List.replicate 45 'a'⟩ : String) ∈ load_advice_lines adviceTestInput :=
  (load_advice_lines_spec.1 adviceTestInput ⟨List.replicate 45 'a'⟩).mpr
    ⟨by decide, by decide, by decide⟩

/-- A JSON value, as produced by the external JSON parser.  Object field
lists are the key/value pairs of a parsed JSON object (unique keys, as a
Python dict has). -/
inductive JValue where
  | null
  | jbool (b : Bool)
  | jnum (n : Int)
  | jstr (s : String)
  | jarr (xs : List JValue)
  | jobj (fields : List (String × JValue))

/-- Python `dict.get(key)` on a parsed JSON object's fields. -/
def jLookup : List (String × JValue) → String → Option JValue
  | [], _ => none
  | (k, v) :: rest, key => if k = key then some v else jLookup rest key

/-- `clean_text` applied to a JSON value as the Python code does: a JSON
string is cleaned, JSON `null` becomes `""` (the `txt is None` branch of
`clean_text`), and any other value makes `clean_text` raise
(`AttributeError` on `.replace`), modelled as `none`. -/
def cleanJStr : JValue → Option String
  | JValue.jstr s => some (clean_text s)
  | JValue.null => some ""
  | _ => none

/-- `[clean_text(x) for x in plan_list]`: clean every element, raising
(`none`) when some element is neither a string nor `null`. -/
def cleanJList : List JValue → Option (List String)
  | [] => some []
  | x :: xs =>
    match cleanJStr x, cleanJList xs with
    | some s, some rest => some (s :: rest)
    | _, _ => none

/-- Embeds the reply handling of `generate_ai_summary_and_plan`
(src/daily_job.py:446-466).  `raw` is the model reply text; `parsed` is the
outcome of `json.loads` on the stripped reply (`none` = parse failure).  On
parse failure the function returns the cleaned raw text with empty alignment
and empty plan.  On success it reads `summary`, `strategy_alignment` (default
`""`) and `plan_tomorrow` (default `[]`, and coerced to `[]` when not a
list); a parse result that is not a JSON object, or a field value that
`clean_text` cannot take, makes the Python code raise, modelled as `none`. -/
def generate_ai_summary_and_plan (raw : String) (parsed : Option JValue) :
    Option (String × String × List String) :=
  let stripped := pyStripString raw
  match parsed with
  | none => some (clean_text stripped, "", [])
  | some (JValue.jobj fields) =>
    match cleanJStr ((jLookup fields "summary").getD (JValue.jstr "")) with
    | none => none
    | some summary =>
      match cleanJStr ((jLookup fields "strategy_alignment").getD (JValue.jstr "")) with
      | none => none
      | some alignment =>
        match cleanJList
            (match (jLookup fields "plan_tomorrow").getD (JValue.jarr []) with
             | JValue.jarr xs => xs
             | _ => []) with
        | none => none
        | some plan => some (summary, alignment, plan)
  | some _ => none

/-- C5: when the AI reply fails to parse as JSON, the function returns the
cleaned raw (stripped) text as the summary with empty strategy-alignment and
empty plan, raising no error; when the reply parses and its `plan_tomorrow`
field is not a JSON list, the returned plan is coerced to the empty list; and
for the concrete reply "not json" (not valid JSON, so the parse fails) the
result is exactly ("not json", "", []). -/
theorem generate_ai_summary_and_plan_spec :
    (∀ raw : String,
        generate_ai_summary_and_plan raw none
          = some (clean_text (pyStripString raw), "", []))
    ∧ (∀ raw : String, ∀ fields : List (String × JValue),
        ∀ out : String × String × List String,
        generate_ai_summary_and_plan raw (some (JValue.jobj fields)) = some out →
        (∀ xs : List JValue,
            (jLookup fields "plan_tomorrow").getD (JValue.jarr []) ≠ JValue.jarr xs) →
        out.2.2 = [])
    ∧ generate_ai_summary_and_plan "not json" none = some ("not json", "", []) := by
  refine ⟨fun raw => rfl, ?_, by rfl⟩
  intro raw fields out hout hnl
  have hplan : (match (jLookup fields "plan_tomorrow").getD (JValue.jarr []) with
                | JValue.jarr xs => xs
                | _ => ([] : List JValue)) = [] := by
    cases hv : (jLookup fields "plan_tomorrow").getD (JValue.jarr []) <;>
      first
        | rfl
        | exact absurd hv (hnl _)
  have hred : generate_ai_summary_and_plan raw (some (JValue.jobj fields))
      = match cleanJStr ((jLookup fields "summary").getD (JValue.jstr "")) with
        | none => none
        | some summary =>
          match cleanJStr ((jLookup fields "strategy_alignment").getD (JValue.jstr "")) with
          | none => none
          | some alignment =>
            match cleanJList
                (match (jLookup fields "plan_tomorrow").getD (JValue.jarr []) with
                 | JValue.jarr xs => xs
                 | _ => []) with
            | none => none
            | some plan => some (summary, alignment, plan) := rfl
  rw [hred, hplan] at hout
  cases hs : cleanJStr ((jLookup fields "summary").getD (JValue.jstr "")) with
  | none => rw [hs] at hout; exact Option.noConfusion hout
  | some summary =>
    cases ha : cleanJStr ((jLookup fields "strategy_alignment").getD (JValue.jstr "")) with
    | none => rw [hs, ha] at hout; exact Option.noConfusion hout
    | some alignment =>
      rw [hs, ha] at hout
      have hval : (summary, alignment, ([] : List String)) = out := Option.some.inj hout
      rw [← hval]

theorem generate_ai_summary_and_plan_witness :
    generate_ai_summary_and_plan "reply"
        (some (JValue.jobj [("plan_tomorrow", JValue.jstr "later")]))
      = some ("", "", [])
    ∧ (("", "", ([] : List String)) : String × String × List String).2.2
        = ([] : List String) :=
  ⟨rfl,
   generate_ai_summary_and_plan_spec.2.1 "reply" [("plan_tomorrow", JValue.jstr "later")]
     ("", "", []) rfl (fun _ h => JValue.noConfusion h)⟩

/-- Embeds `pick_daily_advice` (src/daily_job.py:387-396): the empty list
gives `""`; otherwise `random.choice(lines)` picks `lines[k]` for a random
in-range index — the random outcome is the explicit `choice` parameter,
reduced modulo the length so every outcome is an in-range index. -/
def pick_daily_advice (lines : List String) (choice : Nat) : String :=
  if lines.isEmpty then "" else lines.getD (choice % lines.length) ""

/-- The two advice selections made by one run of `main`: the first at
src/daily_job.py:788 (persisted in the daily-log record), the second inside
`prepare_tasks_for_tomorrow` at src/daily_job.py:742 (used for the chat
notification and the generated document).  The two random outcomes `r1`, `r2`
are independent. -/
def main_advice_selections (advice_lines : List String) (r1 r2 : Nat) :
    String × String :=
  (pick_daily_advice advice_lines r1, pick_daily_advice advice_lines r2)

theorem pick_daily_advice_ne_nil (lines : List String) (k : Nat) (h : lines ≠ []) :
    pick_daily_advice lines k = lines.getD (k % lines.length) "" := by
  have hne : lines.isEmpty = false := by
    cases lines with
    | nil => exact absurd rfl h
    | cons a l => rfl
  rw [pick_daily_advice, hne]
  simp

theorem pick_daily_advice_getElem (lines : List String) (k : Nat)
    (hk : k < lines.length) :
    pick_daily_advice lines k = lines.getD k "" := by
  have h : lines ≠ [] :=
    List.length_pos.1 (Nat.lt_of_le_of_lt (Nat.zero_le k) hk)
  rw [pick_daily_advice_ne_nil lines k h, Nat.mod_eq_of_lt hk]

theorem pick_daily_advice_mem (lines : List String) (k : Nat)
    (h : lines ≠ []) : pick_daily_advice lines k ∈ lines := by
  have hlen : 0 < lines.length := List.length_pos.2 h
  have hm : k % lines.length < lines.length := Nat.mod_lt _ hlen
  rw [pick_daily_advice_ne_nil lines k h, List.getD_eq_getElem lines "" hm]
  exact List.getElem_mem hm

/-- C10: the daily-log advice and the notification/document advice are chosen
by two independent random picks from the same list, so with two distinct
lines the persisted and the broadcast advice can differ within one run; they
coincide for all outcomes exactly when the list has at most one distinct line
(and both are `""` for the empty list). -/
theorem main_advice_selections_spec :
    (main_advice_selections ["Do the hardest task before noon, without exceptions",
        "Plan tomorrow the evening before, in writing"] 0 1).1
      ≠ (main_advice_selections ["Do the hardest task before noon, without exceptions",
        "Plan tomorrow the evening before, in writing"] 0 1).2
    ∧ (∀ r1 r2 : Nat, main_advice_selections [] r1 r2 = ("", ""))
    ∧ (∀ lines : List String, (∀ a ∈ lines, ∀ b ∈ lines, a = b) →
        ∀ r1 r2 : Nat,
          (main_advice_selections lines r1 r2).1 = (main_advice_selections lines r1 r2).2)
    ∧ (∀ lines : List String, ∀ a ∈ lines, ∀ b ∈ lines, a ≠ b →
        ∃ r1 r2 : Nat,
          (main_advice_selections lines r1 r2).1
            ≠ (main_advice_selections lines r1 r2).2) := by
  refine ⟨by decide, fun r1 r2 => rfl, ?_, ?_⟩
  · intro lines hall r1 r2
    rcases eq_or_ne lines [] with rfl | hne
    · rfl
    · exact hall _ (pick_daily_advice_mem lines r1 hne) _ (pick_daily_advice_mem lines r2 hne)
  · intro lines a ha b hb hab
    obtain ⟨i, hi, rfl⟩ := List.mem_iff_getElem.1 ha
    obtain ⟨j, hj, rfl⟩ := List.mem_iff_getElem.1 hb
    refine ⟨i, j, ?_⟩
    show pick_daily_advice lines i ≠ pick_daily_advice lines j
    rw [pick_daily_advice_getElem lines i hi, pick_daily_advice_getElem lines j hj,
      List.getD_eq_getElem lines "" hi, List.getD_eq_getElem lines "" hj]
    exact hab

theorem main_advice_selections_witness :
    (main_advice_selections ["focus", "focus"] 0 1).1
      = (main_advice_selections ["focus", "focus"] 0 1).2 :=
  main_advice_selections_spec.2.2.1 ["focus", "focus"] (by decide) 0 1

end DailyJob
